import Mathlib

/-!
Verification of the USBTMC protocol layer (context.go) against its
specification.  The Go code is shallowly embedded: byte buffers are
`List Nat` (each element a byte value), the USB transport is an explicit
`DevState` record holding a write log, a per-call write-error schedule, the
device's pending byte stream, and a per-call read-delivery schedule.  Loops
are embedded with explicit fuel; every top-level entry point supplies enough
fuel, and the fuel-exhaustion branch coincides with the loop-exit branch so
the embedding is exact.
-/

namespace Usbtmc

/-- Constant from context.go: the assumed USB maximum packet size. -/
def maxPacketSize : Nat := 512

/-- Constant from context.go: length of a USBTMC bulk transfer header. -/
def usbtmcHeaderLen : Nat := 12

/-- Modelled from the spec: the `bulkOutHeaderSize` constant lives in a
repository file not present in src/; the spec fixes the bulk-OUT header at
12 bytes. -/
def bulkOutHeaderSize : Nat := 12

/-- Constant local to `Write` in context.go. -/
def maxTransferSize : Nat := 512

/-- Modelled from the spec: message id of a device-dependent-message-OUT
transfer (the id constants live in a repository file not present in src/). -/
def devDepMsgOut : Nat := 1

/-- Modelled from the spec: message id of a request-device-dependent-message-IN
transfer. -/
def reqDevDepMsgIn : Nat := 2

/-- Modelled from the spec: the Tag Sequencer (`nextbTag` lives in a
repository file not present in src/).  It produces a tag distinct from the
current one, incrementing and wrapping while skipping the reserved value 0. -/
def nextbTag (t : Nat) : Nat := t % 255 + 1

/-- Modelled from the spec: the tag inverse is `0xFF - tag` (`invertbTag`
lives in a repository file not present in src/). -/
def invertbTag (t : Nat) : Nat := 255 - t % 256

/-- Modelled from the spec: `encodeBulkOutHeader(tag, payloadLength,
isLastTransfer)` builds the 12-byte OUT header laid out as
`[messageID, tag, tagInverse, reserved, transferSize (4 bytes LE),
attributes, reserved, reserved, reserved]`, with the EOM attribute bit set
iff `isLastTransfer`. -/
def encodeBulkOutHeader (tag sz : Nat) (eom : Bool) : List Nat :=
  [devDepMsgOut, tag % 256, invertbTag tag, 0,
   sz % 256, sz / 256 % 256, sz / 65536 % 256, sz / 16777216 % 256,
   if eom then 1 else 0, 0, 0, 0]

/-- Modelled from the spec: the IN-request header builder
(`encodeMsgInBulkOutHeader` lives in a repository file not present in src/).
It sets the terminator-requested attribute bit iff `useTerm` and embeds the
terminator byte regardless. -/
def encodeMsgInBulkOutHeader (tag sz : Nat) (useTerm : Bool) (termChar : Nat) :
    List Nat :=
  [reqDevDepMsgIn, tag % 256, invertbTag tag, 0,
   sz % 256, sz / 256 % 256, sz / 65536 % 256, sz / 16777216 % 256,
   if useTerm then 2 else 0, termChar % 256, 0, 0]

/-- Little-endian 32-bit decode of the first four bytes, as
`binary.LittleEndian.Uint32`. -/
def decodeLE32 (l : List Nat) : Nat :=
  l.getD 0 0 + 256 * l.getD 1 0 + 65536 * l.getD 2 0 + 16777216 * l.getD 3 0

/-- The `Device` struct of context.go (the `usbDevice` handle is modelled
separately as `DevState`). -/
structure Device where
  bTag : Nat
  termChar : Nat
  termCharEnabled : Bool

/-- Outcome the transport schedules for one raw bulk-IN read call: either
deliver up to `k` bytes or fail with error code `e`. -/
inductive ReadStep where
  | ok (k : Nat)
  | fail (e : Nat)
deriving DecidableEq

/-- Errors surfaced by the read path: a propagated transport error, or the
`short n-byte read: no space for header` error built in `readRemoveHeader`. -/
inductive UsbErr where
  | transport (e : Nat)
  | shortRead (n : Nat)
deriving DecidableEq

/-- The USB transport (`driver.USBDevice`) plus its interaction history:
`written` logs every bulk-OUT write, `wsched i` is the error (if any) of the
i-th write call, `stream` is the byte sequence the device will deliver on
bulk-IN reads, and `sched i` bounds (or fails) the i-th read call. -/
structure DevState where
  written : List (List Nat)
  wsched : Nat → Option Nat
  widx : Nat
  stream : List Nat
  sched : Nat → ReadStep
  ridx : Nat

/-- `usbDevice.Write`: logs the transfer and reports the scheduled outcome. -/
def devWrite (data : List Nat) (d : DevState) : Option Nat × DevState :=
  (d.wsched d.widx,
   { d with widx := d.widx + 1, written := d.written ++ [data] })

/-- `usbDevice.Read` into a buffer of length `bufLen`: delivers the next
`min k (min bufLen d.stream.length)` stream bytes (the transport never
delivers more than the buffer holds), or fails per the schedule. -/
def devRead (bufLen : Nat) (d : DevState) : Except Nat (List Nat) × DevState :=
  match d.sched d.ridx with
  | ReadStep.fail e => (Except.error e, { d with ridx := d.ridx + 1 })
  | ReadStep.ok k =>
    let n := min k (min bufLen d.stream.length)
    (Except.ok (d.stream.take n),
     { d with ridx := d.ridx + 1, stream := d.stream.drop n })

/-- Go `copy(dst, src)`: overwrites the prefix of `dst` with bytes of `src`,
copying `min dst.length src.length` bytes; `dst` keeps its length. -/
def goCopy (dst src : List Nat) : List Nat :=
  src.take dst.length ++ dst.drop src.length

/-- Result of `Device.Write` in context.go: the device (with advanced tag),
the byte count, the error, and the transport state. -/
structure WriteResult where
  dev : Device
  n : Nat
  err : Option Nat
  st : DevState

/-- The loop of `Device.Write` (context.go lines 129-147), with explicit
fuel.  Each iteration advances the tag, caps the chunk at
`maxTransferSize - bulkOutHeaderSize` payload bytes, builds
header ++ chunk, pads to a multiple of 4 with zero bytes, and performs one
transport write; a write error aborts with the current position. -/
def writeLoop (p : List Nat) : Nat → Nat → Device → DevState → WriteResult
  | 0, _, dev, d => ⟨dev, p.length, none, d⟩
  | fuel + 1, pos, dev, d =>
    if pos < p.length then
      let dev' : Device := { dev with bTag := nextbTag dev.bTag }
      let thisLen := min (p.length - pos) (maxTransferSize - bulkOutHeaderSize)
      let header := encodeBulkOutHeader dev'.bTag thisLen true
      let data0 := header ++ (p.drop pos).take thisLen
      let data := if data0.length % 4 > 0
        then data0 ++ List.replicate (4 - data0.length % 4) 0 else data0
      match devWrite data d with
      | (some e, d') => ⟨dev', pos, some e, d'⟩
      | (none, d') => writeLoop p fuel (pos + thisLen) dev' d'
    else ⟨dev, p.length, none, d⟩

/-- `Device.Write` from context.go: splits `p` into framed chunks and writes
them on the bulk-OUT endpoint. -/
def Write (dev : Device) (p : List Nat) (d : DevState) : WriteResult :=
  writeLoop p (p.length + 1) 0 dev d

/-- Result of `readRemoveHeader` in context.go. -/
structure RRHResult where
  buf : List Nat
  n : Nat
  transfer : Nat
  transferAttr : Nat
  err : Option UsbErr
  st : DevState

/-- The temp-buffer size computed at the top of `readRemoveHeader`:
`len(p) + usbtmcHeaderLen` rounded up to the next multiple of 512. -/
def tempBufSize (pLen : Nat) : Nat :=
  let t := pLen + usbtmcHeaderLen
  if t % 512 ≠ 0 then t + (512 - t % 512) else t

/-- `Device.readRemoveHeader` from context.go: reads the first transfer into
an oversized temp buffer, rejects reads shorter than the 12-byte header,
decodes the little-endian transfer size from bytes 4..8 and the attribute
byte 8, and copies the post-header bytes to the caller's buffer. -/
def readRemoveHeader (p : List Nat) (d : DevState) : RRHResult :=
  let tempSz := tempBufSize p.length
  let temp0 : List Nat := List.replicate tempSz 0
  match devRead temp0.length d with
  | (Except.error e, d') => ⟨p, 0, 0, 0, some (UsbErr.transport e), d'⟩
  | (Except.ok delivered, d') =>
    let temp := goCopy temp0 delivered
    let n := delivered.length
    if n < usbtmcHeaderLen then
      ⟨p, 0, 0, 0, some (UsbErr.shortRead n), d'⟩
    else
      let transfer := decodeLE32 ((temp.drop 4).take 4)
      let transferAttr := temp.getD 8 0
      let toCopy := min (temp.length - usbtmcHeaderLen) (n - usbtmcHeaderLen)
      let buf := if toCopy > 0
        then goCopy p ((temp.drop usbtmcHeaderLen).take toCopy) else p
      ⟨buf, n - usbtmcHeaderLen, transfer, transferAttr, none, d'⟩

/-- `Device.readKeepHeader` from context.go: a plain transport read into the
given slice. -/
def readKeepHeader (p : List Nat) (d : DevState) : Except Nat (List Nat) × DevState :=
  devRead p.length d

/-- Result of the `doRead` reassembly loop: the caller buffer, the
accumulated position, the device-declared transfer size, the error, and the
transport state. -/
structure LoopResult where
  buf : List Nat
  pos : Nat
  transfer : Nat
  err : Option UsbErr
  st : DevState

/-- The reassembly loop of `doRead` (context.go lines 179-214), with explicit
fuel.  The first iteration (pos = 0) strips the header and records the
declared transfer size; later iterations read directly into the remaining
slice of the caller buffer.  A zero-byte delivery breaks the loop; reaching
the declared transfer size breaks the loop. -/
def doReadLoop : Nat → List Nat → Nat → Nat → DevState → LoopResult
  | 0, p, pos, transfer, d => ⟨p, pos, transfer, none, d⟩
  | fuel + 1, p, pos, transfer, d =>
    if pos < p.length then
      if pos = 0 then
        let r := readRemoveHeader p d
        match r.err with
        | some e => ⟨r.buf, pos, r.transfer, some e, r.st⟩
        | none =>
          if r.n = 0 then ⟨r.buf, pos, r.transfer, none, r.st⟩
          else if pos + r.n ≥ r.transfer then ⟨r.buf, pos + r.n, r.transfer, none, r.st⟩
          else doReadLoop fuel r.buf (pos + r.n) r.transfer r.st
      else
        match readKeepHeader (p.drop pos) d with
        | (Except.error e, d') => ⟨p, pos, transfer, some (UsbErr.transport e), d'⟩
        | (Except.ok delivered, d') =>
          let buf := p.take pos ++ goCopy (p.drop pos) delivered
          let resp := delivered.length
          if resp = 0 then ⟨buf, pos, transfer, none, d'⟩
          else if pos + resp ≥ transfer then ⟨buf, pos + resp, transfer, none, d'⟩
          else doReadLoop fuel buf (pos + resp) transfer d'
    else ⟨p, pos, transfer, none, d⟩

/-- Result of `doRead`: the device (with advanced tag), the caller buffer,
the reported byte count, the error, and the transport state. -/
structure ReadResult where
  dev : Device
  buf : List Nat
  n : Nat
  err : Option UsbErr
  st : DevState

/-- `Device.doRead` from context.go: advances the tag, writes the IN-request
header, runs the reassembly loop, and returns `min pos transfer` on success
(or `pos` with the error on failure). -/
def doRead (dev : Device) (p : List Nat) (useTermChar : Bool) (d : DevState) :
    ReadResult :=
  let dev' : Device := { dev with bTag := nextbTag dev.bTag }
  let header := encodeMsgInBulkOutHeader dev'.bTag p.length
    (useTermChar && dev.termCharEnabled) dev.termChar
  match devWrite header d with
  | (some e, d') => ⟨dev', p, 0, some (UsbErr.transport e), d'⟩
  | (none, d') =>
    let r := doReadLoop (p.length + 1) p 0 0 d'
    match r.err with
    | some e => ⟨dev', r.buf, r.pos, some e, r.st⟩
    | none => ⟨dev', r.buf, min r.pos r.transfer, none, r.st⟩

/-- `Device.Read` from context.go: terminator-aware read. -/
def Read (dev : Device) (p : List Nat) (d : DevState) : ReadResult :=
  doRead dev p true d

/-- `Device.BulkRead` from context.go: terminator-disabled read. -/
def BulkRead (dev : Device) (p : List Nat) (d : DevState) : ReadResult :=
  doRead dev p false d

/-- Whitespace bytes trimmed by Go's `strings.TrimSpace` on ASCII data. -/
def asciiSpace (c : Nat) : Bool :=
  c = 9 || c = 10 || c = 11 || c = 12 || c = 13 || c = 32

/-- Go `strings.TrimSpace` restricted to ASCII byte strings: removes leading
and trailing whitespace. -/
def trimSpace (s : List Nat) : List Nat :=
  ((s.dropWhile asciiSpace).reverse.dropWhile asciiSpace).reverse

/-- `Device.Command` from context.go (no-varargs path): writes
`strings.TrimSpace(cmd) + "\n"` through `Write` (byte 10 is the newline).
The Go function returns only the error; the model keeps the whole
`WriteResult` so the written transfers stay observable. -/
def Command (dev : Device) (cmd : List Nat) (d : DevState) : WriteResult :=
  Write dev (trimSpace cmd ++ [10]) d

/-- Declared transfer size of a logged transfer: the little-endian 32-bit
field at bytes 4..8 of its header. -/
def hdrDeclaredSize (t : List Nat) : Nat :=
  decodeLE32 ((t.drop 4).take 4)

/-- Payload bytes of a logged transfer: the declared number of bytes
following the 12-byte header (alignment padding excluded). -/
def payloadOf (t : List Nat) : List Nat :=
  (t.drop usbtmcHeaderLen).take (hdrDeclaredSize t)

/-- The transfer bytes built by one iteration of the `Write` loop at
position `pos` with (already advanced) tag `tag`: header, chunk, and
alignment padding. -/
def writeChunkData (p : List Nat) (pos tag : Nat) : List Nat :=
  let thisLen := min (p.length - pos) (maxTransferSize - bulkOutHeaderSize)
  let data0 := encodeBulkOutHeader tag thisLen true ++ (p.drop pos).take thisLen
  if data0.length % 4 > 0 then data0 ++ List.replicate (4 - data0.length % 4) 0
  else data0

/-- Shared concrete device used by the concrete instances below. -/
def dev0 : Device := ⟨1, 10, true⟩

/-- Shared concrete transport state: empty write log, no write errors, no
pending read bytes. -/
def cleanDev : DevState := ⟨[], fun _ => none, 0, [], fun _ => ReadStep.ok 0, 0⟩

/-! ### Basic facts about the embedding -/

lemma goCopy_length (dst src : List Nat) : (goCopy dst src).length = dst.length := by
  simp only [goCopy, List.length_append, List.length_take, List.length_drop]
  omega

lemma decodeLE32_quad (a b c d : Nat) :
    decodeLE32 [a, b, c, d] = a + 256 * b + 65536 * c + 16777216 * d := rfl

lemma maxChunk_eq : maxTransferSize - bulkOutHeaderSize = 500 := rfl

lemma hdrDeclaredSize_bulkOut (tag sz : Nat) (eom : Bool) (tail : List Nat)
    (h : sz < 4294967296) :
    hdrDeclaredSize (encodeBulkOutHeader tag sz eom ++ tail) = sz := by
  show decodeLE32 [sz % 256, sz / 256 % 256, sz / 65536 % 256, sz / 16777216 % 256] = sz
  rw [decodeLE32_quad]
  omega

lemma payloadOf_bulkOut (tag : Nat) (eom : Bool) (chunk pad : List Nat)
    (h : chunk.length < 4294967296) :
    payloadOf ((encodeBulkOutHeader tag chunk.length eom ++ chunk) ++ pad) = chunk := by
  rw [List.append_assoc]
  unfold payloadOf
  rw [hdrDeclaredSize_bulkOut _ _ _ _ h]
  show (chunk ++ pad).take chunk.length = chunk
  exact List.take_left chunk pad

lemma if_append_pad (c : Prop) [Decidable c] (x r : List Nat) :
    (if c then x ++ r else x) = x ++ (if c then r else []) := by
  split <;> simp

lemma writeChunkData_payload (p : List Nat) (pos tag : Nat) :
    payloadOf (writeChunkData p pos tag)
      = (p.drop pos).take (min (p.length - pos) 500) ∧
    hdrDeclaredSize (writeChunkData p pos tag) = min (p.length - pos) 500 := by
  unfold writeChunkData
  rw [maxChunk_eq, if_append_pad]
  set thisLen := min (p.length - pos) 500 with hTL
  set chunk := (p.drop pos).take thisLen with hchunk
  have hlen : chunk.length = thisLen := by
    rw [hchunk, List.length_take, List.length_drop]
    omega
  have hbig : thisLen < 4294967296 := by omega
  constructor
  · have := payloadOf_bulkOut tag true chunk
      (if (encodeBulkOutHeader tag thisLen true ++ chunk).length % 4 > 0
       then List.replicate (4 - (encodeBulkOutHeader tag thisLen true ++ chunk).length % 4) 0
       else []) (by omega)
    rw [hlen] at this
    exact this
  · rw [List.append_assoc]
    exact hdrDeclaredSize_bulkOut tag thisLen true _ hbig

/-! ### Step lemmas for the Write loop -/

lemma writeLoop_done (p : List Nat) (fuel pos : Nat) (dev : Device) (d : DevState)
    (h : p.length ≤ pos) :
    writeLoop p fuel pos dev d = ⟨dev, p.length, none, d⟩ := by
  cases fuel <;> simp [writeLoop, Nat.not_lt.mpr h]

lemma writeLoop_succ (p : List Nat) (fuel pos : Nat) (dev : Device) (d : DevState)
    (hpos : pos < p.length) (hok : d.wsched d.widx = none) :
    writeLoop p (fuel + 1) pos dev d =
      writeLoop p fuel (pos + min (p.length - pos) (maxTransferSize - bulkOutHeaderSize))
        ⟨nextbTag dev.bTag, dev.termChar, dev.termCharEnabled⟩
        ⟨d.written ++ [writeChunkData p pos (nextbTag dev.bTag)], d.wsched, d.widx + 1,
         d.stream, d.sched, d.ridx⟩ := by
  simp only [writeLoop, hpos, if_true, devWrite, hok, writeChunkData]

lemma writeLoop_succ_fail (p : List Nat) (fuel pos : Nat) (dev : Device) (d : DevState)
    (e : Nat) (hpos : pos < p.length) (hfail : d.wsched d.widx = some e) :
    writeLoop p (fuel + 1) pos dev d =
      ⟨⟨nextbTag dev.bTag, dev.termChar, dev.termCharEnabled⟩, pos, some e,
       ⟨d.written ++ [writeChunkData p pos (nextbTag dev.bTag)], d.wsched, d.widx + 1,
        d.stream, d.sched, d.ridx⟩⟩ := by
  simp only [writeLoop, hpos, if_true, devWrite, hfail, writeChunkData]

/-! ### The Write loop under an error-free transport -/

lemma writeLoop_allok (p : List Nat) :
    ∀ fuel pos dev d, (∀ i, d.wsched i = none) → pos < p.length →
      p.length - pos ≤ fuel →
      ∃ W, (writeLoop p fuel pos dev d).st.written = d.written ++ W ∧
        (writeLoop p fuel pos dev d).err = none ∧
        (writeLoop p fuel pos dev d).n = p.length ∧
        W.length = (p.length - pos + 499) / 500 ∧
        (∀ t ∈ W, (payloadOf t).length = hdrDeclaredSize t ∧ hdrDeclaredSize t ≤ 500) ∧
        (W.map payloadOf).flatten = p.drop pos := by
  intro fuel
  induction fuel with
  | zero =>
    intro pos dev d _ hpos hfuel
    omega
  | succ fuel ih =>
    intro pos dev d hok hpos hfuel
    rw [writeLoop_succ p fuel pos dev d hpos (hok d.widx), maxChunk_eq]
    obtain ⟨hpay, hdecl⟩ := writeChunkData_payload p pos (nextbTag dev.bTag)
    by_cases hfit : pos + min (p.length - pos) 500 < p.length
    · have hTLval : min (p.length - pos) 500 = 500 := by omega
      rw [hTLval] at hpay hdecl hfit ⊢
      obtain ⟨W', h1, h2, h3, h4, h5, h6⟩ :=
        ih (pos + 500)
          ⟨nextbTag dev.bTag, dev.termChar, dev.termCharEnabled⟩
          ⟨d.written ++ [writeChunkData p pos (nextbTag dev.bTag)], d.wsched, d.widx + 1,
           d.stream, d.sched, d.ridx⟩
          (fun i => hok i) hfit (by omega)
      refine ⟨writeChunkData p pos (nextbTag dev.bTag) :: W', ?_, h2, h3, ?_, ?_, ?_⟩
      · rw [h1]
        show d.written ++ [writeChunkData p pos (nextbTag dev.bTag)] ++ W' = _
        rw [List.append_assoc, List.singleton_append]
      · rw [List.length_cons, h4]
        omega
      · rw [List.forall_mem_cons]
        refine ⟨⟨?_, ?_⟩, h5⟩
        · rw [hpay, hdecl, List.length_take, List.length_drop]
          omega
        · rw [hdecl]
      · rw [List.map_cons, List.flatten_cons, h6, hpay]
        rw [show p.drop (pos + 500) = (p.drop pos).drop 500 from
          (List.drop_drop 500 pos p).symm]
        rw [show (500 : Nat) = min (p.length - pos) 500 from hTLval.symm]
        exact List.take_append_drop _ (p.drop pos)
    · rw [writeLoop_done p fuel _ _ _ (by omega)]
      have hTLR : min (p.length - pos) 500 = p.length - pos := by omega
      refine ⟨[writeChunkData p pos (nextbTag dev.bTag)], rfl, rfl, rfl, ?_, ?_, ?_⟩
      · show [writeChunkData p pos (nextbTag dev.bTag)].length = _
        rw [List.length_singleton]
        omega
      · intro t ht
        rw [List.mem_singleton] at ht
        subst ht
        refine ⟨?_, ?_⟩
        · rw [hpay, hdecl, List.length_take, List.length_drop]
          omega
        · rw [hdecl]; omega
      · show payloadOf (writeChunkData p pos (nextbTag dev.bTag)) ++ [].flatten = p.drop pos
        rw [List.flatten_nil, List.append_nil, hpay]
        apply List.take_of_length_le
        rw [List.length_drop]
        omega

/-! ### The Write loop with a failing transport write -/

lemma writeLoop_failat (p : List Nat) (e : Nat) :
    ∀ i fuel pos dev d, (∀ j, j < i → d.wsched (d.widx + j) = none) →
      d.wsched (d.widx + i) = some e → pos + 500 * i < p.length → i < fuel →
      (writeLoop p fuel pos dev d).n = pos + 500 * i ∧
      (writeLoop p fuel pos dev d).err = some e := by
  intro i
  induction i with
  | zero =>
    intro fuel pos dev d _ hfail hpos hfuel
    cases fuel with
    | zero => omega
    | succ fuel =>
      rw [writeLoop_succ_fail p fuel pos dev d e (by omega)
        (by rw [show d.widx = d.widx + 0 from rfl] at hfail ⊢; exact hfail)]
      refine ⟨?_, rfl⟩
      show pos = pos + 500 * 0
      omega
  | succ i ih =>
    intro fuel pos dev d hok hfail hpos hfuel
    cases fuel with
    | zero => omega
    | succ fuel =>
      rw [writeLoop_succ p fuel pos dev d (by omega)
        (by have := hok 0 (by omega); rwa [Nat.add_zero] at this), maxChunk_eq]
      have hTLval : min (p.length - pos) 500 = 500 := by omega
      rw [hTLval]
      have := ih fuel (pos + 500)
        ⟨nextbTag dev.bTag, dev.termChar, dev.termCharEnabled⟩
        ⟨d.written ++ [writeChunkData p pos (nextbTag dev.bTag)], d.wsched, d.widx + 1,
         d.stream, d.sched, d.ridx⟩
        (fun j hj => by
          have := hok (j + 1) (by omega)
          rw [show d.widx + (j + 1) = d.widx + 1 + j by omega] at this
          exact this)
        (by
          have : d.widx + (i + 1) = d.widx + 1 + i := by omega
          rw [this] at hfail
          exact hfail)
        (by omega) (by omega)
      refine ⟨?_, this.2⟩
      rw [this.1]
      omega

/-- Concrete transport whose second write call fails with error code 42. -/
def failDev : DevState :=
  ⟨[], fun j => if j = 0 then none else some 42, 0, [], fun _ => ReadStep.ok 0, 0⟩

/-- Claim C5 (confirmed): for every payload of length L > 0 written through an
error-free transport, `Write` splits it into ceil(L/500) chunks, each chunk
carrying at most 500 payload bytes, each chunk's header-declared size equal to
its actual payload length, and the chunk payloads concatenating back to the
original payload in order. -/
theorem c5_write_chunking (dev : Device) (p : List Nat) (d : DevState)
    (hp : 0 < p.length) (hok : ∀ i, d.wsched i = none) (h0 : d.written = []) :
    (Write dev p d).st.written.length = (p.length + 499) / 500 ∧
    (∀ t ∈ (Write dev p d).st.written,
      (payloadOf t).length = hdrDeclaredSize t ∧ hdrDeclaredSize t ≤ 500) ∧
    ((Write dev p d).st.written.map payloadOf).flatten = p := by
  obtain ⟨W, h1, _h2, _h3, h4, h5, h6⟩ :=
    writeLoop_allok p (p.length + 1) 0 dev d hok hp (by omega)
  rw [h0, List.nil_append] at h1
  unfold Write
  rw [h1]
  refine ⟨?_, h5, ?_⟩
  · rw [h4]; omega
  · rw [List.drop_zero] at h6
    rw [h6]

set_option maxRecDepth 40000 in
/-- Witness for C5: a concrete 1300-byte payload yields exactly three
transfers with declared payload sizes 500, 500, 300 in that order. -/
theorem c5_write_chunking_witness :
    0 < (List.replicate 1300 7).length ∧
    ((Write dev0 (List.replicate 1300 7) cleanDev).st.written.map hdrDeclaredSize
      = [500, 500, 300]) ∧
    ((Write dev0 (List.replicate 1300 7) cleanDev).st.written.length
        = ((List.replicate 1300 7).length + 499) / 500 ∧
      (∀ t ∈ (Write dev0 (List.replicate 1300 7) cleanDev).st.written,
        (payloadOf t).length = hdrDeclaredSize t ∧ hdrDeclaredSize t ≤ 500) ∧
      ((Write dev0 (List.replicate 1300 7) cleanDev).st.written.map payloadOf).flatten
        = List.replicate 1300 7) :=
  ⟨by decide, by decide,
    c5_write_chunking dev0 (List.replicate 1300 7) cleanDev (by decide)
      (fun _ => rfl) rfl⟩

set_option maxRecDepth 40000 in
/-- Claim C3 (code bug): `Write` passes `true` for the EOM flag on every
chunk (context.go line 135 hardcodes the last argument of
`encodeBulkOutHeader`), so a 1300-byte payload produces three transfers whose
attribute byte (index 8 of the header) is 1 in all three, including the two
non-final chunks, where the claim requires it to be 0. -/
theorem c3_eom_every_chunk :
    ((Write dev0 (List.replicate 1300 7) cleanDev).st.written.map
      (fun t => t.getD 8 0)) = [1, 1, 1] := by decide

/-- Counterexample to C4: `Write` with an empty payload performs no transfer
at all (the loop body never runs), so the number of issued transfers is 0,
not the one zero-length EOM-set transfer the claim requires. -/
theorem c4_counterexample :
    (Write dev0 [] cleanDev).st.written = [] ∧
    ¬ (Write dev0 [] cleanDev).st.written.length = 1 := by decide

/-- Claim C4 (corrected): calling `Write` with an empty payload issues no
transfer at all — nothing is written to the OUT endpoint, the tag is not
advanced, and the call returns 0 bytes with no error. -/
theorem c4_empty_write (dev : Device) (d : DevState) :
    Write dev [] d = ⟨dev, 0, none, d⟩ := rfl

/-- Claim C6 (confirmed): if the transport write of chunk `i` fails (every
earlier chunk's write succeeding), `Write` stops immediately and returns the
number of original-payload bytes in the chunks completed before the failing
one — 500 per completed chunk — together with the transport error
unmodified. -/
theorem c6_write_abort (dev : Device) (p : List Nat) (d : DevState) (i e : Nat)
    (hw : d.widx = 0) (hok : ∀ j, j < i → d.wsched j = none)
    (hf : d.wsched i = some e) (hi : 500 * i < p.length) :
    (Write dev p d).n = 500 * i ∧ (Write dev p d).err = some e := by
  have h := writeLoop_failat p e i (p.length + 1) 0 dev d
    (fun j hj => by rw [hw, Nat.zero_add]; exact hok j hj)
    (by rw [hw, Nat.zero_add]; exact hf)
    (by omega) (by omega)
  unfold Write
  exact ⟨by rw [h.1]; omega, h.2⟩

set_option maxRecDepth 40000 in
/-- Witness for C6: writing 1300 bytes against a transport whose second write
(chunk index 1) fails with error 42 returns 500 bytes and error 42. -/
theorem c6_write_abort_witness :
    (Write dev0 (List.replicate 1300 7) failDev).n = 500 * 1 ∧
    (Write dev0 (List.replicate 1300 7) failDev).err = some 42 :=
  c6_write_abort dev0 (List.replicate 1300 7) failDev 1 42 rfl
    (fun j hj => by rw [show j = 0 by omega]; rfl) rfl (by decide)

/-- Counterexample to C9: `Command` applies Go's `strings.TrimSpace`, which
removes LEADING whitespace as well. For the input " *" (bytes [32, 42]) the
payload actually written is "*\n" (bytes [42, 10]) rather than the " *\n"
(bytes [32, 42, 10]) the claim — which says leading whitespace is left
unchanged — requires. -/
theorem c9_counterexample :
    ((Command dev0 [32, 42] cleanDev).st.written.map payloadOf).flatten = [42, 10] ∧
    ¬ ((Command dev0 [32, 42] cleanDev).st.written.map payloadOf).flatten
        = [32, 42, 10] := by decide

/-- Claim C9 (corrected): `Command` writes exactly the input with both leading
and trailing whitespace removed, followed by a single newline byte, and it
fails iff the underlying write fails (its error is exactly the `Write`
error). -/
theorem c9_command (dev : Device) (cmd : List Nat) (d : DevState)
    (hok : ∀ i, d.wsched i = none) (h0 : d.written = []) :
    ((Command dev cmd d).st.written.map payloadOf).flatten = trimSpace cmd ++ [10] ∧
    (Command dev cmd d).err = none ∧
    (Command dev cmd d).err = (Write dev (trimSpace cmd ++ [10]) d).err := by
  have hlen : 0 < (trimSpace cmd ++ [10]).length := by simp
  obtain ⟨W, h1, h2, _h3, _h4, _h5, h6⟩ :=
    writeLoop_allok (trimSpace cmd ++ [10]) ((trimSpace cmd ++ [10]).length + 1)
      0 dev d hok hlen (by omega)
  rw [h0, List.nil_append] at h1
  unfold Command Write
  rw [h1]
  refine ⟨?_, h2, rfl⟩
  rw [List.drop_zero] at h6
  rw [h6]

/-- Witness for C9 at the concrete input " \t* " (bytes [32, 9, 42, 32]). -/
theorem c9_command_witness :
    ((Command dev0 [32, 9, 42, 32] cleanDev).st.written.map payloadOf).flatten
      = trimSpace [32, 9, 42, 32] ++ [10] ∧
    (Command dev0 [32, 9, 42, 32] cleanDev).err = none ∧
    (Command dev0 [32, 9, 42, 32] cleanDev).err
      = (Write dev0 (trimSpace [32, 9, 42, 32] ++ [10]) cleanDev).err :=
  c9_command dev0 [32, 9, 42, 32] cleanDev (fun _ => rfl) rfl

/-! ### Step lemmas for the read path -/

lemma goCopy_replicate_take (sz : Nat) (l : List Nat) (n : Nat) (hn : n ≤ sz)
    (hl : n ≤ l.length) :
    goCopy (List.replicate sz 0) (l.take n)
      = l.take n ++ (List.replicate sz 0).drop n := by
  unfold goCopy
  rw [List.length_replicate]
  rw [List.take_of_length_le (by rw [List.length_take]; omega)]
  rw [List.length_take, Nat.min_eq_left hl]

lemma prefix_window (l rest : List Nat) (n : Nat) (h8 : 8 ≤ n) (hl : n ≤ l.length) :
    ((l.take n ++ rest).drop 4).take 4 = (l.drop 4).take 4 := by
  rw [List.drop_append_of_le_length (by rw [List.length_take]; omega)]
  rw [List.take_append_of_le_length (by rw [List.length_drop, List.length_take]; omega)]
  rw [List.drop_take, List.take_take]
  congr 1
  omega

lemma readRemoveHeader_okstep (p : List Nat) (d : DevState) (k : Nat)
    (hk : d.sched d.ridx = ReadStep.ok k)
    (h12 : 12 ≤ min k (min (tempBufSize p.length) d.stream.length)) :
    (readRemoveHeader p d).err = none ∧
    (readRemoveHeader p d).n = min k (min (tempBufSize p.length) d.stream.length) - 12 ∧
    (readRemoveHeader p d).transfer = decodeLE32 ((d.stream.drop 4).take 4) ∧
    (readRemoveHeader p d).buf.length = p.length ∧
    (readRemoveHeader p d).st = ⟨d.written, d.wsched, d.widx,
      d.stream.drop (min k (min (tempBufSize p.length) d.stream.length)), d.sched,
      d.ridx + 1⟩ := by
  have hsl : min k (min (tempBufSize p.length) d.stream.length) ≤ d.stream.length := by
    omega
  have hts : min k (min (tempBufSize p.length) d.stream.length) ≤ tempBufSize p.length := by
    omega
  unfold readRemoveHeader devRead
  rw [hk]
  dsimp only
  rw [List.length_replicate]
  rw [List.length_take, Nat.min_eq_left hsl]
  rw [if_neg (by unfold usbtmcHeaderLen; omega)]
  dsimp only
  rw [goCopy_replicate_take _ _ _ hts hsl]
  refine ⟨rfl, rfl, ?_, ?_, rfl⟩
  · exact congrArg decodeLE32 (prefix_window d.stream _ _ (by omega) hsl)
  · split
    · rw [goCopy_length]
    · rfl

lemma readRemoveHeader_shortstep (p : List Nat) (d : DevState) (k : Nat)
    (hk : d.sched d.ridx = ReadStep.ok k)
    (h12 : min k (min (tempBufSize p.length) d.stream.length) < 12) :
    readRemoveHeader p d =
      ⟨p, 0, 0, 0,
       some (UsbErr.shortRead (min k (min (tempBufSize p.length) d.stream.length))),
       ⟨d.written, d.wsched, d.widx,
        d.stream.drop (min k (min (tempBufSize p.length) d.stream.length)), d.sched,
        d.ridx + 1⟩⟩ := by
  have hsl : min k (min (tempBufSize p.length) d.stream.length) ≤ d.stream.length := by
    omega
  unfold readRemoveHeader devRead
  rw [hk]
  dsimp only
  rw [List.length_replicate]
  rw [List.length_take, Nat.min_eq_left hsl]
  rw [if_pos (by unfold usbtmcHeaderLen; omega)]

lemma doReadLoop_exit (fuel : Nat) (p : List Nat) (pos transfer : Nat) (d : DevState)
    (h : p.length ≤ pos) :
    doReadLoop fuel p pos transfer d = ⟨p, pos, transfer, none, d⟩ := by
  cases fuel <;> simp [doReadLoop, Nat.not_lt.mpr h]

lemma doReadLoop_first (fuel : Nat) (p : List Nat) (transfer : Nat) (d : DevState)
    (h : 0 < p.length) :
    doReadLoop (fuel + 1) p 0 transfer d =
      (let r := readRemoveHeader p d
       match r.err with
       | some e => ⟨r.buf, 0, r.transfer, some e, r.st⟩
       | none =>
         if r.n = 0 then ⟨r.buf, 0, r.transfer, none, r.st⟩
         else if 0 + r.n ≥ r.transfer then ⟨r.buf, 0 + r.n, r.transfer, none, r.st⟩
         else doReadLoop fuel r.buf (0 + r.n) r.transfer r.st) := by
  simp only [doReadLoop, h, if_true]

lemma doReadLoop_cont (fuel : Nat) (p : List Nat) (pos transfer : Nat) (d : DevState)
    (k : Nat) (h1 : pos < p.length) (h2 : pos ≠ 0)
    (hk : d.sched d.ridx = ReadStep.ok k) :
    doReadLoop (fuel + 1) p pos transfer d =
      (let n := min k (min (p.length - pos) d.stream.length)
       let buf := p.take pos ++ goCopy (p.drop pos) (d.stream.take n)
       let d' : DevState := ⟨d.written, d.wsched, d.widx, d.stream.drop n, d.sched,
         d.ridx + 1⟩
       if n = 0 then ⟨buf, pos, transfer, none, d'⟩
       else if pos + n ≥ transfer then ⟨buf, pos + n, transfer, none, d'⟩
       else doReadLoop fuel buf (pos + n) transfer d') := by
  have hn : (d.stream.take (min k (min (p.length - pos) d.stream.length))).length
      = min k (min (p.length - pos) d.stream.length) := by
    rw [List.length_take]; omega
  simp only [doReadLoop, h1, if_true, readKeepHeader, devRead, hk, List.length_drop]
  rw [if_neg h2]
  rw [hn]

lemma doRead_write_ok (dev : Device) (p : List Nat) (u : Bool) (d : DevState)
    (hw : d.wsched d.widx = none) :
    doRead dev p u d =
      (let d1 : DevState := ⟨d.written ++ [encodeMsgInBulkOutHeader (nextbTag dev.bTag)
          p.length (u && dev.termCharEnabled) dev.termChar], d.wsched, d.widx + 1,
          d.stream, d.sched, d.ridx⟩
       let r := doReadLoop (p.length + 1) p 0 0 d1
       match r.err with
       | some e => ⟨⟨nextbTag dev.bTag, dev.termChar, dev.termCharEnabled⟩, r.buf,
           r.pos, some e, r.st⟩
       | none => ⟨⟨nextbTag dev.bTag, dev.termChar, dev.termCharEnabled⟩, r.buf,
           min r.pos r.transfer, none, r.st⟩) := by
  simp only [doRead, devWrite, hw]

lemma tempBufSize_lb (n : Nat) : n + 12 ≤ tempBufSize n := by
  unfold tempBufSize usbtmcHeaderLen
  dsimp only
  split <;> omega

/-! ### The reassembly loop under an error-free transport -/

lemma doReadLoop_run (data : List Nat) :
    ∀ fuel p pos d,
      (∀ i, ∃ k, d.sched i = ReadStep.ok k ∧ 1 ≤ k) →
      1 ≤ pos → pos ≤ p.length → pos < data.length →
      d.stream = data.drop pos →
      p.length + 1 - pos ≤ fuel →
      (doReadLoop fuel p pos data.length d).pos = min data.length p.length ∧
      (doReadLoop fuel p pos data.length d).err = none ∧
      (doReadLoop fuel p pos data.length d).buf.length = p.length ∧
      (doReadLoop fuel p pos data.length d).transfer = data.length := by
  intro fuel
  induction fuel with
  | zero =>
    intro p pos d _ h1 h2 _ _ hfuel
    omega
  | succ fuel ih =>
    intro p pos d hsched h1 h2 h3 hstream hfuel
    by_cases hpp : pos < p.length
    · obtain ⟨k, hk, hk1⟩ := hsched d.ridx
      have hslen : d.stream.length = data.length - pos := by
        rw [hstream, List.length_drop]
      rw [doReadLoop_cont fuel p pos data.length d k hpp (by omega) hk]
      dsimp only
      generalize hN : min k (min (p.length - pos) d.stream.length) = N
      have hN1 : 1 ≤ N := by omega
      have hNp : pos + N ≤ p.length := by omega
      have hNd : pos + N ≤ data.length := by omega
      have hbuflen : (p.take pos ++ goCopy (p.drop pos) (d.stream.take N)).length
          = p.length := by
        rw [List.length_append, List.length_take, goCopy_length, List.length_drop]
        omega
      rw [if_neg (by omega)]
      by_cases hbr : pos + N ≥ data.length
      · rw [if_pos hbr]
        exact ⟨by dsimp only; omega, rfl, by dsimp only; exact hbuflen, rfl⟩
      · rw [if_neg hbr]
        have hih := ih (p.take pos ++ goCopy (p.drop pos) (d.stream.take N)) (pos + N)
          ⟨d.written, d.wsched, d.widx, d.stream.drop N, d.sched, d.ridx + 1⟩
          hsched (by omega)
          (by rw [hbuflen]; exact hNp)
          (by omega)
          (by show d.stream.drop N = data.drop (pos + N)
              rw [hstream, List.drop_drop])
          (by rw [hbuflen]; omega)
        refine ⟨?_, hih.2.1, ?_, hih.2.2.2⟩
        · rw [hih.1, hbuflen]
        · rw [hih.2.2.1, hbuflen]
    · rw [doReadLoop_exit _ _ _ _ _ (by omega)]
      exact ⟨by dsimp only; omega, rfl, rfl, rfl⟩

/-! ### Read-path claims -/

/-- Concrete transport whose first read delivers only 3 bytes. -/
def shortDev : DevState :=
  ⟨[], fun _ => none, 0, [1, 2, 3], fun _ => ReadStep.ok 512, 0⟩

/-- Concrete transport sending a first-transfer header with tag 5 and
tag-inverse byte 77 (instead of 0xFF - 5 = 250), declaring 3 payload
bytes. -/
def mismatchDev : DevState :=
  ⟨[], fun _ => none, 0, [2, 5, 77, 0, 3, 0, 0, 0, 1, 10, 0, 0, 9, 9, 9],
   fun _ => ReadStep.ok 512, 0⟩

/-- Claim C8 (confirmed): if a raw read during reassembly delivers zero
payload bytes, the loop terminates immediately without error, keeping the
accumulated position and the caller buffer untouched; since mid-reassembly
`pos < transfer`, the read operation's final `min pos transfer` equals the
accumulated `pos`, so the bytes accumulated so far are returned. -/
theorem c8_zero_read (fuel : Nat) (p : List Nat) (pos transfer : Nat)
    (d : DevState) (k : Nat) (h1 : 1 ≤ pos) (h2 : pos < p.length)
    (h3 : pos < transfer) (hk : d.sched d.ridx = ReadStep.ok k)
    (h0 : min k (min (p.length - pos) d.stream.length) = 0) :
    (doReadLoop (fuel + 1) p pos transfer d).buf = p ∧
    (doReadLoop (fuel + 1) p pos transfer d).pos = pos ∧
    (doReadLoop (fuel + 1) p pos transfer d).err = none ∧
    min pos transfer = pos := by
  rw [doReadLoop_cont fuel p pos transfer d k h2 (by omega) hk]
  dsimp only
  rw [h0, if_pos rfl]
  refine ⟨?_, rfl, rfl, by omega⟩
  show p.take pos ++ goCopy (p.drop pos) (d.stream.take 0) = p
  rw [List.take_zero]
  simp [goCopy]

/-- Witness for C8: a concrete mid-reassembly state at position 2 of a
5-byte buffer with a declared transfer of 9 and an exhausted device stream. -/
theorem c8_zero_read_witness :
    (doReadLoop 6 (List.replicate 5 0) 2 9 cleanDev).buf = List.replicate 5 0 ∧
    (doReadLoop 6 (List.replicate 5 0) 2 9 cleanDev).pos = 2 ∧
    (doReadLoop 6 (List.replicate 5 0) 2 9 cleanDev).err = none ∧
    min 2 9 = 2 :=
  c8_zero_read 5 (List.replicate 5 0) 2 9 cleanDev 0 (by decide) (by decide)
    (by decide) rfl (by decide)

/-- Claim C7 (confirmed): if the first raw read of a response delivers fewer
than 12 bytes, `doRead` reports zero bytes together with the short-read
format error built in `readRemoveHeader`. -/
theorem c7_short_first_read (dev : Device) (p : List Nat) (u : Bool)
    (d : DevState) (k : Nat) (hp : 0 < p.length) (hw : d.wsched d.widx = none)
    (hk : d.sched d.ridx = ReadStep.ok k)
    (hshort : min k (min (tempBufSize p.length) d.stream.length) < 12) :
    (doRead dev p u d).n = 0 ∧
    (doRead dev p u d).err
      = some (UsbErr.shortRead
          (min k (min (tempBufSize p.length) d.stream.length))) := by
  rw [doRead_write_ok dev p u d hw]
  dsimp only
  rw [doReadLoop_first p.length p 0 _ hp]
  rw [readRemoveHeader_shortstep p
    ⟨d.written ++ [encodeMsgInBulkOutHeader (nextbTag dev.bTag) p.length
        (u && dev.termCharEnabled) dev.termChar],
     d.wsched, d.widx + 1, d.stream, d.sched, d.ridx⟩ k hk hshort]
  exact ⟨rfl, rfl⟩

/-- Witness for C7: a 4-byte caller buffer against a device that delivers
only 3 bytes on the first read. -/
theorem c7_short_first_read_witness :
    (doRead dev0 [0, 0, 0, 0] true shortDev).n = 0 ∧
    (doRead dev0 [0, 0, 0, 0] true shortDev).err
      = some (UsbErr.shortRead
          (min 512 (min (tempBufSize ([0, 0, 0, 0] : List Nat).length)
            shortDev.stream.length))) :=
  c7_short_first_read dev0 [0, 0, 0, 0] true shortDev 512 (by decide) rfl rfl
    (by decide)

/-- Claim C1 (corrected): `readRemoveHeader` performs no tag-inverse
validation: on a first-transfer header whose tag-inverse byte differs from
`0xFF - tag` it still returns no error and delivers the payload count
normally; the mismatch is only rendered into the debug string built by
`inHdrToString`, which does not affect the returned values. -/
theorem c1_mismatch_accepted (p : List Nat) (d : DevState) (k : Nat)
    (hk : d.sched d.ridx = ReadStep.ok k)
    (h12 : 12 ≤ min k (min (tempBufSize p.length) d.stream.length))
    (_hmismatch : d.stream.getD 2 0 ≠ invertbTag (d.stream.getD 1 0)) :
    (readRemoveHeader p d).err = none ∧
    (readRemoveHeader p d).n
      = min k (min (tempBufSize p.length) d.stream.length) - 12 :=
  ⟨(readRemoveHeader_okstep p d k hk h12).1,
   (readRemoveHeader_okstep p d k hk h12).2.1⟩

set_option maxRecDepth 40000 in
/-- Witness for C1 (corrected form) at a concrete corrupted header. -/
theorem c1_mismatch_accepted_witness :
    (readRemoveHeader [0, 0, 0, 0] mismatchDev).err = none ∧
    (readRemoveHeader [0, 0, 0, 0] mismatchDev).n
      = min 512 (min (tempBufSize ([0, 0, 0, 0] : List Nat).length)
          mismatchDev.stream.length) - 12 :=
  c1_mismatch_accepted [0, 0, 0, 0] mismatchDev 512 rfl (by decide) (by decide)

set_option maxRecDepth 40000 in
/-- Counterexample to C1: the concrete corrupted header (tag 5, inverse 77
where 0xFF - 5 = 250) is accepted by the read path with no error of any
kind — no protocol-integrity error is returned to the caller. -/
theorem c1_counterexample :
    mismatchDev.stream.getD 2 0 ≠ invertbTag (mismatchDev.stream.getD 1 0) ∧
    (readRemoveHeader [0, 0, 0, 0] mismatchDev).err = none ∧
    (readRemoveHeader [0, 0, 0, 0] mismatchDev).n = 3 := by decide

/-- Claim C10 (confirmed): `doRead` on an empty caller buffer still advances
the tag once and writes exactly one IN-request header (declaring 0 requested
bytes), performs no raw read from the device, and returns zero bytes with no
error. -/
theorem c10_empty_read (dev : Device) (u : Bool) (d : DevState)
    (hw : d.wsched d.widx = none) :
    (doRead dev [] u d).dev.bTag = nextbTag dev.bTag ∧
    (doRead dev [] u d).n = 0 ∧
    (doRead dev [] u d).err = none ∧
    (doRead dev [] u d).st.written
      = d.written ++ [encodeMsgInBulkOutHeader (nextbTag dev.bTag) 0
          (u && dev.termCharEnabled) dev.termChar] ∧
    (doRead dev [] u d).st.ridx = d.ridx := by
  rw [doRead_write_ok dev [] u d hw]
  dsimp only
  rw [doReadLoop_exit _ _ _ _ _ (Nat.le_refl 0)]
  exact ⟨rfl, rfl, rfl, rfl, rfl⟩

/-- Witness for C10 on the concrete clean transport. -/
theorem c10_empty_read_witness :
    (doRead dev0 [] true cleanDev).dev.bTag = nextbTag dev0.bTag ∧
    (doRead dev0 [] true cleanDev).n = 0 ∧
    (doRead dev0 [] true cleanDev).err = none ∧
    (doRead dev0 [] true cleanDev).st.written
      = cleanDev.written ++ [encodeMsgInBulkOutHeader (nextbTag dev0.bTag) 0
          (true && dev0.termCharEnabled) dev0.termChar] ∧
    (doRead dev0 [] true cleanDev).st.ridx = cleanDev.ridx :=
  c10_empty_read dev0 true cleanDev rfl

lemma drop_append_past (l₁ l₂ : List Nat) (n : Nat) (h : l₁.length ≤ n) :
    (l₁ ++ l₂).drop n = l₂.drop (n - l₁.length) := by
  rw [List.drop_append_eq_append_drop]
  rw [List.drop_eq_nil_of_le h, List.nil_append]

/-- Claim C2 (corrected): for an error-free device response whose stream is a
12-byte header declaring exactly its payload length `T = data.length`,
delivered across raw reads that each carry at least one payload byte (the
first read supplies the full header plus at least one payload byte when
`T > 0`, hence at least 13 bytes) and whose first read delivers at most
`len(buffer) + 12` bytes, `doRead` returns exactly `min T len(buffer)` bytes
with no error and never writes past the caller buffer (its length is
preserved). -/
theorem c2_read_bound (dev : Device) (u : Bool) (p hdr data : List Nat)
    (d : DevState) (k0 : Nat)
    (hp : 1 ≤ p.length)
    (hw : d.wsched d.widx = none)
    (hstream : d.stream = hdr ++ data)
    (hhdr : hdr.length = 12)
    (hT : decodeLE32 ((hdr.drop 4).take 4) = data.length)
    (hsched : ∀ i, ∃ k, d.sched i = ReadStep.ok k ∧ 1 ≤ k)
    (hk0 : d.sched d.ridx = ReadStep.ok k0)
    (hk0lo : 13 ≤ k0) (hk0hi : k0 ≤ 12 + p.length) :
    (doRead dev p u d).n = min data.length p.length ∧
    (doRead dev p u d).err = none ∧
    (doRead dev p u d).buf.length = p.length := by
  have htbs := tempBufSize_lb p.length
  have hslen : d.stream.length = 12 + data.length := by
    rw [hstream, List.length_append, hhdr]
  have hdec : decodeLE32 (((hdr ++ data).drop 4).take 4) = data.length := by
    rw [List.drop_append_of_le_length (by omega),
      List.take_append_of_le_length (by rw [List.length_drop]; omega), hT]
  rw [doRead_write_ok dev p u d hw]
  dsimp only
  rw [doReadLoop_first p.length p 0 _ hp]
  dsimp only
  obtain ⟨herr, hn, htr, hblen, hst⟩ := readRemoveHeader_okstep p
    ⟨d.written ++ [encodeMsgInBulkOutHeader (nextbTag dev.bTag) p.length
        (u && dev.termCharEnabled) dev.termChar],
     d.wsched, d.widx + 1, d.stream, d.sched, d.ridx⟩ k0 hk0
    (by show 12 ≤ min k0 (min (tempBufSize p.length) d.stream.length); omega)
  dsimp only at hn htr hblen hst
  have htr2 : (readRemoveHeader p
      ⟨d.written ++ [encodeMsgInBulkOutHeader (nextbTag dev.bTag) p.length
          (u && dev.termCharEnabled) dev.termChar],
       d.wsched, d.widx + 1, d.stream, d.sched, d.ridx⟩).transfer
      = data.length := by
    rw [htr, hstream]
    exact hdec
  rw [herr]
  dsimp only
  rw [hn, htr2]
  by_cases hT0 : data.length = 0
  · rw [if_pos (by omega)]
    dsimp only
    refine ⟨?_, rfl, hblen⟩
    omega
  · rw [if_neg (by omega)]
    by_cases hbr : 0 + (min k0 (min (tempBufSize p.length) d.stream.length) - 12)
        ≥ data.length
    · rw [if_pos hbr]
      dsimp only
      refine ⟨?_, rfl, hblen⟩
      omega
    · rw [if_neg hbr]
      rw [hst]
      have hrun := doReadLoop_run data p.length
        (readRemoveHeader p
          ⟨d.written ++ [encodeMsgInBulkOutHeader (nextbTag dev.bTag) p.length
              (u && dev.termCharEnabled) dev.termChar],
           d.wsched, d.widx + 1, d.stream, d.sched, d.ridx⟩).buf
        (0 + (min k0 (min (tempBufSize p.length) d.stream.length) - 12))
        ⟨d.written ++ [encodeMsgInBulkOutHeader (nextbTag dev.bTag) p.length
            (u && dev.termCharEnabled) dev.termChar],
         d.wsched, d.widx + 1,
         d.stream.drop (min k0 (min (tempBufSize p.length) d.stream.length)),
         d.sched, d.ridx + 1⟩
        hsched (by omega)
        (by rw [hblen]; omega)
        (by omega)
        (by show d.stream.drop (min k0 (min (tempBufSize p.length) d.stream.length))
              = data.drop
                  (0 + (min k0 (min (tempBufSize p.length) d.stream.length) - 12))
            generalize hg : min k0 (min (tempBufSize p.length) d.stream.length) = n0
            rw [hstream, drop_append_past hdr data n0 (by rw [hhdr]; omega), hhdr,
              Nat.zero_add])
        (by rw [hblen]; omega)
      rw [hrun.2.1]
      dsimp only
      refine ⟨?_, rfl, ?_⟩
      · rw [hrun.1, hrun.2.2.2, hblen]
        omega
      · rw [hrun.2.2.1, hblen]

/-- Concrete transport: response header declares 600 payload bytes, 600
payload bytes follow, and every raw read delivers up to 512 bytes. -/
def overDev : DevState :=
  ⟨[], fun _ => none, 0,
   [2, 1, 254, 0, 88, 2, 0, 0, 1, 10, 0, 0] ++ List.replicate 600 7,
   fun _ => ReadStep.ok 512, 0⟩

/-- Concrete transport: response header declares 20 payload bytes, 20 payload
bytes follow; the first read delivers up to 17 bytes, later reads up to 3. -/
def okDev : DevState :=
  ⟨[], fun _ => none, 0,
   [2, 1, 254, 0, 20, 0, 0, 0, 1, 10, 0, 0] ++ List.replicate 20 3,
   fun i => if i = 0 then ReadStep.ok 17 else ReadStep.ok 3, 0⟩

set_option maxRecDepth 40000 in
/-- Counterexample to C2: with a 10-byte caller buffer and an error-free
response declaring (and delivering) T = 600 bytes across non-zero raw reads,
`doRead` reports 500 bytes - not `min 600 10 = 10` - because the first raw
read lands up to 512 bytes in the temp buffer (rounded up from 22 to 512)
and the payload count is only capped by the declared transfer size, not by
the caller buffer. -/
theorem c2_counterexample :
    (doRead dev0 (List.replicate 10 0) true overDev).n = 500 ∧
    (doRead dev0 (List.replicate 10 0) true overDev).err = none ∧
    ¬ (doRead dev0 (List.replicate 10 0) true overDev).n
        = min 600 (List.replicate 10 0).length := by decide

set_option maxRecDepth 40000 in
/-- Witness for C2 (corrected form): 8-byte buffer, T = 20, first read
delivering 17 bytes (header + 5 payload), later reads 3 bytes each; the
result is min 20 8 = 8 bytes, no error, buffer length preserved. -/
theorem c2_read_bound_witness :
    (doRead dev0 (List.replicate 8 0) true okDev).n
      = min (List.replicate 20 3).length (List.replicate 8 0).length ∧
    (doRead dev0 (List.replicate 8 0) true okDev).err = none ∧
    (doRead dev0 (List.replicate 8 0) true okDev).buf.length
      = (List.replicate 8 0).length :=
  c2_read_bound dev0 true (List.replicate 8 0)
    [2, 1, 254, 0, 20, 0, 0, 0, 1, 10, 0, 0] (List.replicate 20 3) okDev 17
    (by decide) rfl rfl (by decide) (by decide)
    (fun i => by
      by_cases h : i = 0
      · exact ⟨17, by simp [okDev, h], by omega⟩
      · exact ⟨3, by simp [okDev, h], by omega⟩)
    rfl (by decide) (by decide)

end Usbtmc
